import Mathlib

/-
Verification of the `MultiGet` command of scv119/mini-redis
(`src/cmd/multiget.rs`): the decode / execute / encode triad of one
command variant of a framed key-value protocol.

The command's own code is embedded directly from the source.  The
collaborating types (`Frame`, `Parse`, `Db`, `Connection`) live in the
repository but outside the provided sources, so they are modelled from
the specification's descriptions of the Wire Value Model, the Field
Cursor, the Store Handle and the Connection Handle.
-/

namespace MiniRedis

/-- Modelled from the spec: the Wire Value Model (`Frame` in `src/frame.rs`,
not shipped with the sources): a closed set of value kinds — integer, bulk
byte-string, null, and array-of-values.  Byte strings (`Bytes`) are modelled
as Lean `String`s, which keeps `String::into_bytes` / byte-to-string
conversions the identity. -/
inductive Frame where
  | integer (n : Nat)
  | bulk (s : String)
  | null
  | array (entries : List Frame)
deriving Repr

/-- Modelled from the spec: `Frame::array()` constructs an empty array value. -/
def Frame.newArray : Frame := .array []

/-- Modelled from the spec: `Frame::push_bulk` appends a bulk entry to an
array value.  The source panics on a non-array frame; every call site in
the embedded command pushes onto an array, so the non-array case returns
the frame unchanged. -/
def Frame.push_bulk : Frame → String → Frame
  | .array es, s => .array (es ++ [.bulk s])
  | f, _ => f

/-- Modelled from the spec: `Frame::push_int` appends an integer entry to an
array value (non-array case as in `Frame.push_bulk`). -/
def Frame.push_int : Frame → Nat → Frame
  | .array es, n => .array (es ++ [.integer n])
  | f, _ => f

/-- Modelled from the spec: `Frame::push_null` appends a null entry to an
array value (non-array case as in `Frame.push_bulk`). -/
def Frame.push_null : Frame → Frame
  | .array es => .array (es ++ [.null])
  | f => f

/-- The fields of an array value (used to state what an encoded frame holds). -/
def Frame.entries : Frame → List Frame
  | .array es => es
  | _ => []

/-- Modelled from the spec: the two failure conditions of the Field Cursor —
`endOfStream` is the exhausted-input condition (cursor ran out of fields),
`wrongKind` the wrong-kind condition (a field's value kind does not match
what the position requires). -/
inductive ParseError where
  | endOfStream
  | wrongKind
deriving DecidableEq, Repr

/-- Modelled from the spec: the Field Cursor (`Parse` in `src/parse.rs`, not
shipped with the sources): a sequential reader over the remaining fields of
one received array value, embedded as the list of fields not yet consumed. -/
abbrev Parse := List Frame

/-- Modelled from the spec: `Parse::next_int` reads the next field as an
integer; it fails with exhausted-input when no field remains and with
wrong-kind when the next field is not an integer. -/
def Parse.next_int : Parse → Except ParseError (Nat × Parse)
  | [] => .error .endOfStream
  | .integer n :: rest => .ok (n, rest)
  | _ :: _ => .error .wrongKind

/-- Modelled from the spec: `Parse::next_string` reads the next field as a
string; it fails with exhausted-input when no field remains and with
wrong-kind when the next field is not a string. -/
def Parse.next_string : Parse → Except ParseError (String × Parse)
  | [] => .error .endOfStream
  | .bulk s :: rest => .ok (s, rest)
  | _ :: _ => .error .wrongKind

/-- Modelled from the spec: the Store Handle — a keyed mapping from key name
to value offering a single-key lookup, embedded as its key-to-value map. -/
abbrev Db := String → Option String

/-- Modelled from the spec: `Db::get`, the single-key lookup (`&self`: it
does not change the mapping). -/
def Db.get (db : Db) (key : String) : Option String := db key

/-- Modelled from the spec: `Db::set`, the single-key write offered at the
core's boundary (not used by `MultiGet`, present to show the store is
mutable). -/
def Db.set (db : Db) (key value : String) : Db :=
  fun k => if k = key then some value else db k

/-- Modelled from the spec: the one failure a `Connection` write can raise
(e.g. the peer disconnected). -/
inductive ConnError where
  | writeFailed
deriving DecidableEq, Repr

/-- Modelled from the spec: the Connection Handle records the frames written
so far; `healthy` says whether the transport still accepts writes. -/
structure Connection where
  written : List Frame
  healthy : Bool
deriving Repr

/-- Modelled from the spec: `Connection::write_frame` writes one complete
frame, all-or-nothing: it appends the frame when the transport is healthy
and fails without any partial write otherwise. -/
def Connection.write_frame (c : Connection) (f : Frame) :
    Except ConnError Connection :=
  if c.healthy then .ok { c with written := c.written ++ [f] }
  else .error .writeFailed

/-- The `MultiGet` command variant (`src/cmd/multiget.rs`): the names of the
keys to get.  The field accessor `MultiGet.keys` embeds the source's
`keys()` getter. -/
structure MultiGet where
  keys : List String
deriving DecidableEq, Repr

/-- `MultiGet::new`: create a new command from a caller-supplied key list. -/
def MultiGet.new (keys : List String) : MultiGet :=
  { keys := keys }

/-- The key-reading loop of `MultiGet::parse_frames`
(`for _ in 0..num_keys { keys.push(parse.next_string()?) }`): read exactly
`n` string fields in order, returning them in reading order. -/
def readKeys : Nat → Parse → Except ParseError (List String × Parse)
  | 0, p => .ok ([], p)
  | n + 1, p => do
    let (key, p) ← Parse.next_string p
    let (keys, p) ← readKeys n p
    .ok (key :: keys, p)

/-- `MultiGet::parse_frames`: with the command-name token already consumed
by the dispatcher, read one integer field (the key count), then that many
string fields, yielding the command and the remaining cursor. -/
def MultiGet.parse_frames (p : Parse) : Except ParseError (MultiGet × Parse) := do
  let (num_keys, p) ← Parse.next_int p
  let (keys, p) ← readKeys num_keys p
  .ok (MultiGet.new keys, p)

/-- The response-building loop of `MultiGet::apply`: one entry per key, in
key-list order — a bulk entry holding `db.get(key)`'s value when the store
has the key, a null entry otherwise.  The store handle is threaded through
the fold (`db.get` borrows `&self`, so each step passes the store on
unchanged). -/
def MultiGet.buildResponse (c : MultiGet) (db : Db) : Frame × Db :=
  c.keys.foldl
    (fun acc key =>
      match Db.get acc.2 key with
      | some value => (acc.1.push_bulk value, acc.2)
      | none => (acc.1.push_null, acc.2))
    (Frame.newArray, db)

/-- `MultiGet::apply`: build the response array from the shared store, then
write it to the connection with exactly one `write_frame` call, propagating
a write failure to the caller via `?`. -/
def MultiGet.apply (c : MultiGet) (db : Db) (dst : Connection) :
    Except ConnError (Db × Connection) := do
  let (response, db) := c.buildResponse db
  let dst ← dst.write_frame response
  .ok (db, dst)

/-- `MultiGet::into_frame`: an array frame holding the bulk command name
`"multiget"`, the integer key count, then one bulk entry per key, in key
order. -/
def MultiGet.into_frame (c : MultiGet) : Frame :=
  let frame := Frame.newArray
  let frame := frame.push_bulk "multiget"
  let frame := frame.push_int c.keys.length
  c.keys.foldl (fun f key => f.push_bulk key) frame

/-- The response entry a single key contributes: a bulk frame holding the
store's value when the key is present, a null frame otherwise. -/
def responseEntry (db : Db) (key : String) : Frame :=
  match Db.get db key with
  | some value => Frame.bulk value
  | none => Frame.null

/-- An example store used to instantiate theorems at concrete inputs:
`{"a": "1", "b": "2"}`. -/
def exampleDb : Db :=
  fun k => if k = "a" then some "1" else if k = "b" then some "2" else none

/-! ### Helper lemmas -/

theorem foldl_push_bulk (K : List String) (es : List Frame) :
    K.foldl (fun f key => f.push_bulk key) (Frame.array es) =
      Frame.array (es ++ K.map Frame.bulk) := by
  induction K generalizing es with
  | nil => simp
  | cons k K ih =>
      rw [List.foldl_cons,
        show (Frame.array es).push_bulk k = Frame.array (es ++ [Frame.bulk k]) from rfl,
        ih]
      simp

theorem into_frame_eq (K : List String) :
    (MultiGet.new K).into_frame =
      Frame.array
        (Frame.bulk "multiget" :: Frame.integer K.length :: K.map Frame.bulk) := by
  show K.foldl (fun f key => f.push_bulk key)
      (Frame.array [Frame.bulk "multiget", Frame.integer K.length]) = _
  rw [foldl_push_bulk]
  rfl

theorem readKeys_map_bulk (K : List String) (rest : Parse) :
    readKeys K.length (K.map Frame.bulk ++ rest) = .ok (K, rest) := by
  induction K with
  | nil => rfl
  | cons k K ih =>
      simp only [List.length_cons, List.map_cons, List.cons_append, readKeys,
        Parse.next_string, bind, Except.bind, ih]

theorem readKeys_exhausted (n : Nat) (p : Parse)
    (hlen : p.length < n) (hstr : ∀ f ∈ p, ∃ s, f = Frame.bulk s) :
    readKeys n p = .error .endOfStream := by
  induction p generalizing n with
  | nil =>
      cases n with
      | zero => omega
      | succ n => rfl
  | cons f p ih =>
      cases n with
      | zero => simp at hlen
      | succ n =>
        obtain ⟨s, rfl⟩ := hstr f (List.mem_cons_self f p)
        simp only [readKeys, Parse.next_string, bind, Except.bind]
        rw [ih n (by simpa using hlen) (fun g hg => hstr g (List.mem_cons_of_mem _ hg))]

theorem buildResponse_foldl (K : List String) (es : List Frame) (db : Db) :
    K.foldl
        (fun acc key =>
          match Db.get acc.2 key with
          | some value => (acc.1.push_bulk value, acc.2)
          | none => (acc.1.push_null, acc.2))
        (Frame.array es, db) =
      (Frame.array (es ++ K.map (responseEntry db)), db) := by
  induction K generalizing es with
  | nil => simp
  | cons k K ih =>
      rw [List.foldl_cons]
      cases h : Db.get db k with
      | some v =>
          simp only [h]
          rw [show (Frame.array es).push_bulk v = Frame.array (es ++ [Frame.bulk v]) from
            rfl, ih]
          simp [responseEntry, h]
      | none =>
          simp only [h]
          rw [show (Frame.array es).push_null = Frame.array (es ++ [Frame.null]) from
            rfl, ih]
          simp [responseEntry, h]

theorem buildResponse_eq (K : List String) (db : Db) :
    (MultiGet.new K).buildResponse db =
      (Frame.array (K.map (responseEntry db)), db) := by
  show K.foldl _ (Frame.newArray, db) = _
  rw [show Frame.newArray = Frame.array [] from rfl, buildResponse_foldl]
  simp

theorem apply_healthy (c : MultiGet) (db : Db) (w : List Frame) :
    c.apply db ⟨w, true⟩ =
      .ok (db, ⟨w ++ [Frame.array (c.keys.map (responseEntry db))], true⟩) := by
  obtain ⟨K⟩ := c
  show (MultiGet.new K).apply db ⟨w, true⟩ = _
  simp only [MultiGet.apply, buildResponse_eq, Connection.write_frame, bind,
    Except.bind]
  rfl

/-! ### Claim theorems -/

/-- Claim C1: for every finite key list `K` (empty and duplicate-containing
lists included), parsing the fields of the array frame produced by
`into_frame` of `MultiGet::new(K)`, after the leading command-name token has
been consumed by the dispatcher, succeeds and yields a `MultiGet` whose key
list equals `K` element-for-element, in the same order, with the cursor
fully consumed. -/
theorem multiget_round_trip (K : List String) :
    MultiGet.parse_frames (((MultiGet.new K).into_frame).entries.drop 1) =
      .ok (MultiGet.new K, []) := by
  rw [into_frame_eq]
  show MultiGet.parse_frames (Frame.integer K.length :: K.map Frame.bulk) = _
  simp only [MultiGet.parse_frames, Parse.next_int, bind, Except.bind]
  rw [show K.map Frame.bulk = K.map Frame.bulk ++ [] from (List.append_nil _).symm,
    readKeys_map_bulk]

/-- Claim C2: a successful `apply` of a `MultiGet` with keys `K` writes a
response that is an array frame with exactly `len(K)` entries, for every
store state, zero included. -/
theorem multiget_response_length (K : List String) (db : Db) (dst : Connection)
    (h : dst.healthy = true) :
    ∃ es : List Frame,
      (MultiGet.new K).apply db dst =
        .ok (db, { dst with written := dst.written ++ [Frame.array es] }) ∧
      es.length = K.length := by
  obtain ⟨w, healthy⟩ := dst
  cases h
  exact ⟨K.map (responseEntry db), apply_healthy _ db w, by simp⟩

/-- Witness for C2 at `K = ["a", "c"]` against the example store. -/
theorem multiget_response_length_witness :
    (⟨[], true⟩ : Connection).healthy = true ∧
    ∃ es : List Frame,
      (MultiGet.new ["a", "c"]).apply exampleDb ⟨[], true⟩ =
        .ok (exampleDb,
          { written := ([] : List Frame) ++ [Frame.array es], healthy := true }) ∧
      es.length = (["a", "c"] : List String).length :=
  ⟨rfl, multiget_response_length ["a", "c"] exampleDb ⟨[], true⟩ rfl⟩

/-- Claim C3: in the response `apply` builds, the entry at index `i` is a
bulk frame holding the store's value for key `K[i]` when the lookup returns
a value and a null frame otherwise — each occurrence of a duplicate key is
looked up independently, in request order. -/
theorem multiget_positional (K : List String) (db : Db) (i : Nat)
    (hi : i < K.length) :
    (((MultiGet.new K).buildResponse db).1).entries[i]? =
      some (match Db.get db (K.get ⟨i, hi⟩) with
        | some value => Frame.bulk value
        | none => Frame.null) := by
  rw [buildResponse_eq]
  show (K.map (responseEntry db))[i]? = some (responseEntry db (K.get ⟨i, hi⟩))
  rw [List.getElem?_map, List.getElem?_eq_getElem hi]
  rfl

/-- Witness for C3: the spec's concrete scenario — store
`{"a": "1", "b": "2"}`, request `["b", "a", "b"]`, index 2 answers
`bulk "2"`. -/
theorem multiget_positional_witness :
    2 < (["b", "a", "b"] : List String).length ∧
    (((MultiGet.new ["b", "a", "b"]).buildResponse exampleDb).1).entries[2]? =
      some (Frame.bulk "2") := by
  refine ⟨by decide, ?_⟩
  have h := multiget_positional ["b", "a", "b"] exampleDb 2 (by decide)
  rw [h]
  rfl

/-- Claim C4: a declared key count of 0 parses successfully to an empty key
list (for any remaining fields), and `apply` on the empty command still
performs one write, of an empty array frame. -/
theorem multiget_zero_keys (rest : Parse) (db : Db) (dst : Connection)
    (h : dst.healthy = true) :
    MultiGet.parse_frames (Frame.integer 0 :: rest) = .ok (MultiGet.new [], rest) ∧
    (MultiGet.new []).apply db dst =
      .ok (db, { dst with written := dst.written ++ [Frame.array []] }) := by
  refine ⟨rfl, ?_⟩
  obtain ⟨w, healthy⟩ := dst
  cases h
  exact apply_healthy _ db w

/-- Witness for C4 with an empty remaining cursor and the example store. -/
theorem multiget_zero_keys_witness :
    (⟨[], true⟩ : Connection).healthy = true ∧
    (MultiGet.parse_frames (Frame.integer 0 :: []) = .ok (MultiGet.new [], []) ∧
     (MultiGet.new []).apply exampleDb ⟨[], true⟩ =
       .ok (exampleDb,
         { written := ([] : List Frame) ++ [Frame.array []], healthy := true })) :=
  ⟨rfl, multiget_zero_keys [] exampleDb ⟨[], true⟩ rfl⟩

/-- Claim C5: when the first field after the command name is present but not
an integer, `parse_frames` fails with the wrong-kind error — for every
possible remainder of the cursor, so no key field is ever read — and
returns no `MultiGet`. -/
theorem multiget_wrong_kind_count (f : Frame) (rest : Parse)
    (h : ∀ n, f ≠ Frame.integer n) :
    MultiGet.parse_frames (f :: rest) = .error ParseError.wrongKind := by
  cases f with
  | integer n => exact absurd rfl (h n)
  | bulk s => rfl
  | null => rfl
  | array es => rfl

/-- Witness for C5: a bulk-string count field fails with wrong-kind. -/
theorem multiget_wrong_kind_count_witness :
    (∀ n, Frame.bulk "notanint" ≠ Frame.integer n) ∧
    MultiGet.parse_frames [Frame.bulk "notanint", Frame.bulk "k"] =
      .error ParseError.wrongKind :=
  ⟨fun _ h => Frame.noConfusion h,
   multiget_wrong_kind_count (Frame.bulk "notanint") [Frame.bulk "k"]
     (fun _ h => Frame.noConfusion h)⟩

/-- Claim C6: a declared key count `n` with fewer than `n` string fields
remaining fails with the exhausted-input error, and so does a cursor with
no count field at all. -/
theorem multiget_exhausted (n : Nat) (rest : Parse)
    (hlen : rest.length < n) (hstr : ∀ f ∈ rest, ∃ s, f = Frame.bulk s) :
    MultiGet.parse_frames (Frame.integer n :: rest) =
        .error ParseError.endOfStream ∧
    MultiGet.parse_frames [] = .error ParseError.endOfStream := by
  refine ⟨?_, rfl⟩
  simp only [MultiGet.parse_frames, Parse.next_int, bind, Except.bind]
  rw [readKeys_exhausted n rest hlen hstr]

/-- Witness for C6: the spec's example, count 3 with only 2 string fields. -/
theorem multiget_exhausted_witness :
    ([Frame.bulk "k1", Frame.bulk "k2"] : Parse).length < 3 ∧
    (∀ f ∈ ([Frame.bulk "k1", Frame.bulk "k2"] : Parse), ∃ s, f = Frame.bulk s) ∧
    (MultiGet.parse_frames
          (Frame.integer 3 :: [Frame.bulk "k1", Frame.bulk "k2"]) =
        .error ParseError.endOfStream ∧
      MultiGet.parse_frames [] = .error ParseError.endOfStream) := by
  have hstr : ∀ f ∈ ([Frame.bulk "k1", Frame.bulk "k2"] : Parse),
      ∃ s, f = Frame.bulk s := by
    intro f hf
    rcases List.mem_cons.mp hf with rfl | hf
    · exact ⟨"k1", rfl⟩
    rcases List.mem_cons.mp hf with rfl | hf
    · exact ⟨"k2", rfl⟩
    exact absurd hf (List.not_mem_nil f)
  exact ⟨by decide, hstr, multiget_exhausted 3 _ (by decide) hstr⟩

/-- Claim C7: `into_frame` of `MultiGet::new(K)` is the array frame holding,
in order, the bulk command name `"multiget"`, the integer `len(K)`, and one
bulk field per key of `K`, in list order. -/
theorem multiget_encode_format (K : List String) :
    (MultiGet.new K).into_frame =
      Frame.array
        (Frame.bulk "multiget" :: Frame.integer K.length :: K.map Frame.bulk) :=
  into_frame_eq K

/-- Claim C8: `apply` is read-only with respect to the store — whenever it
succeeds, the store state it hands back is the one it was given, for every
key list and store. -/
theorem multiget_read_only (c : MultiGet) (db db' : Db) (dst dst' : Connection)
    (h : c.apply db dst = .ok (db', dst')) : db' = db := by
  have hb : c.buildResponse db = (Frame.array (c.keys.map (responseEntry db)), db) :=
    buildResponse_eq c.keys db
  cases hh : dst.healthy with
  | true =>
      simp only [MultiGet.apply, hb, Connection.write_frame, hh, if_true, bind,
        Except.bind, Except.ok.injEq, Prod.mk.injEq] at h
      exact h.1.symm
  | false =>
      simp only [MultiGet.apply, hb, Connection.write_frame, hh, if_false, bind,
        Except.bind] at h
      exact absurd h (by simp)

/-- Witness for C8: a concrete successful run against the example store. -/
theorem multiget_read_only_witness :
    (MultiGet.new ["a"]).apply exampleDb ⟨[], true⟩ =
      .ok (exampleDb, ⟨[Frame.array [Frame.bulk "1"]], true⟩) ∧
    exampleDb = exampleDb := by
  have happ : (MultiGet.new ["a"]).apply exampleDb ⟨[], true⟩ =
      .ok (exampleDb, ⟨[Frame.array [Frame.bulk "1"]], true⟩) := by
    rw [apply_healthy]
    rfl
  exact ⟨happ, multiget_read_only _ exampleDb exampleDb _ _ happ⟩

/-- Claim C9: on a healthy connection, `apply` performs exactly one framed
write — the complete response appended once to the written log; when the
write fails, the error propagates to the caller and nothing at all is
written (no retry, no partial flush). -/
theorem multiget_single_write (c : MultiGet) (db : Db) (dst : Connection) :
    (dst.healthy = true →
      c.apply db dst =
        .ok (db, { dst with written := dst.written ++
          [Frame.array (c.keys.map (responseEntry db))] })) ∧
    (dst.healthy = false →
      c.apply db dst = .error ConnError.writeFailed) := by
  have hb : c.buildResponse db = (Frame.array (c.keys.map (responseEntry db)), db) :=
    buildResponse_eq c.keys db
  constructor
  · intro h
    obtain ⟨w, healthy⟩ := dst
    cases h
    exact apply_healthy c db w
  · intro h
    simp [MultiGet.apply, hb, Connection.write_frame, h]
    rfl

/-- Witness for C9: both the healthy and the failing connection, at a
concrete command and store. -/
theorem multiget_single_write_witness :
    ((⟨[], true⟩ : Connection).healthy = true →
      (MultiGet.new ["a"]).apply exampleDb ⟨[], true⟩ =
        .ok (exampleDb, ⟨[Frame.array [Frame.bulk "1"]], true⟩)) ∧
    ((⟨[], false⟩ : Connection).healthy = false →
      (MultiGet.new ["a"]).apply exampleDb ⟨[], false⟩ =
        .error ConnError.writeFailed) :=
  ⟨fun h => (multiget_single_write (MultiGet.new ["a"]) exampleDb ⟨[], true⟩).1 h,
   fun h => (multiget_single_write (MultiGet.new ["a"]) exampleDb ⟨[], false⟩).2 h⟩

/-- Claim C10: `MultiGet::new(K)` stores `K` unchanged — the `keys` accessor
returns exactly `K`, with no deduplication, reordering, trimming or other
normalization. -/
theorem multiget_new_keys (K : List String) : (MultiGet.new K).keys = K := rfl

end MiniRedis
